import Mathlib

/-!
Verification of the segment-accumulation and SRT-serialization core of
`src/faster_whisper_tools/transcribe_audio.py`.

Modelling conventions:
* Python floats are modelled as exact rationals (`ℚ`); Python's
  floor-division `//`, modulo `%` (result takes the divisor's sign) and
  truncating `int(...)` conversion are modelled explicitly below.
* The speech-recognition engine (`WhisperModel`) is an external
  collaborator: `transcribe_audio` is embedded as a function of the
  segment sequence the engine yields, and the `pbar.update` calls are
  recorded as an explicit list of progress deltas.
* Python's arity checking at a call site is modelled by `pyCall`, which
  raises `TypeError` (and never runs the callee's body) when the number
  of positional arguments differs from the parameter count.
-/

namespace FasterWhisper

/-- Python `a // b` for a positive divisor `b`: floor division. Python
returns a float whose exact value is the floor, so the result is kept
as a rational here. -/
def pyFloorDiv (a b : ℚ) : ℚ := (⌊a / b⌋ : ℚ)

/-- Python `a % b` for a positive divisor `b`: `a - b * (a // b)`,
always in `[0, b)` whatever the sign of `a`. -/
def pyMod (a b : ℚ) : ℚ := a - b * pyFloorDiv a b

/-- Python `int(x)` on a float: truncation toward zero. -/
def pyInt (q : ℚ) : ℤ := if 0 ≤ q then ⌊q⌋ else ⌈q⌉

/-- Python `"{:0Nd}".format(i)` with width `w`: the decimal
representation zero-padded to `w` characters, a negative number's sign
standing before the padding. -/
def pyZFill (w : Nat) (i : ℤ) : String :=
  let sign := if i < 0 then "-" else ""
  let digits := toString i.natAbs
  sign ++ String.mk (List.replicate (w - (sign.length + digits.length)) '0') ++ digits

/-- Embeds `SRTSegment` (lines 23–33): one subtitle record. -/
structure SRTSegment where
  index : Nat
  start_time : ℚ
  end_time : ℚ
  text : String
  deriving DecidableEq

/-- Embeds `SRTSegment._format_timestamp` (lines 35–42):
`"{:02d}:{:02d}:{:02d},{:03d}".format(int(t // 3600), int((t % 3600) // 60),
int(t % 60), int((t % 1) * 1000))`. -/
def SRTSegment._format_timestamp (time : ℚ) : String :=
  pyZFill 2 (pyInt (pyFloorDiv time 3600)) ++ ":" ++
    pyZFill 2 (pyInt (pyFloorDiv (pyMod time 3600) 60)) ++ ":" ++
    pyZFill 2 (pyInt (pyMod time 60)) ++ "," ++
    pyZFill 3 (pyInt (pyMod time 1 * 1000))

/-- Embeds `SRTSegment.to_srt_string` (lines 30–33):
`f"{self.index}\n{start_timestamp} --> {end_timestamp}\n{self.text}\n"`. -/
def SRTSegment.to_srt_string (s : SRTSegment) : String :=
  toString s.index ++ "\n" ++ SRTSegment._format_timestamp s.start_time ++ " --> " ++
    SRTSegment._format_timestamp s.end_time ++ "\n" ++ s.text ++ "\n"

/-- A segment yielded by the external engine: the loop reads only
`segment.end` (named `end_` here, `end` being reserved in Lean) and
`segment.text`. -/
structure Segment where
  end_ : ℚ
  text : String
  deriving DecidableEq

/-- The accumulation loop of `transcribe_audio` (lines 49–59): a single
forward pass with 1-based `idx` and running `start_time`; returns the
texts appended to `full_txt`, the records appended to `srt_segments`,
and the deltas passed to `pbar.update`, in order. -/
def transcribeLoop : Nat → ℚ → List Segment → List String × List SRTSegment × List ℚ
  | _, _, [] => ([], [], [])
  | idx, start_time, s :: rest =>
    let r := transcribeLoop (idx + 1) s.end_ rest
    (s.text :: r.1, ⟨idx, start_time, s.end_, s.text⟩ :: r.2.1, (s.end_ - start_time) :: r.2.2)

/-- Embeds `transcribe_audio` (lines 45–61), as a function of the segment
sequence the external engine yields: returns `" ".join(full_txt)`,
`srt_segments`, and the list of `pbar.update` deltas. -/
def transcribe_audio (segs : List Segment) : String × List SRTSegment × List ℚ :=
  let r := transcribeLoop 1 0 segs
  (String.intercalate " " r.1, r.2.1, r.2.2)

/-- Number of parameters of `transcribe_audio`'s definition (line 45):
`audio_file_path` and `model_size`. -/
def transcribe_audio_paramCount : Nat := 2

/-- Number of positional arguments `process_audio_file` passes to
`transcribe_audio` at line 79: `audio_file_path`, `model_size`,
`output_dir`. -/
def process_audio_file_argCount : Nat := 3

/-- The Python faults relevant here. -/
inductive PyError where
  | typeError
  deriving DecidableEq

/-- A Python call with `argCount` positional arguments to a function of
`paramCount` parameters: when the counts differ, `TypeError` is raised
and the callee's body is never entered. -/
def pyCall (paramCount argCount : Nat) (body : Unit → α) : Except PyError α :=
  if argCount = paramCount then .ok (body ()) else .error .typeError

/-- Embeds `process_audio_file` (lines 78–81): calls `transcribe_audio` with
three positional arguments, then on success writes the transcript file
via `save_transcription_and_summarize`. `transcribeBody` stands for
`transcribe_audio`'s body (it runs the external engine), `outFile` for
the timestamped output path; the returned list records the files
written. -/
def process_audio_file (transcribeBody : Unit → String × List SRTSegment × List ℚ)
    (outFile : String) : Except PyError (String × List (String × String)) :=
  match pyCall transcribe_audio_paramCount process_audio_file_argCount transcribeBody with
  | .error e => .error e
  | .ok r => .ok (outFile, [(outFile, r.1)])

/-! ### Spec-side timestamp formatting, for the refinement claim -/

/-- The spec's zero-padding: the decimal digits of `n`, left-padded with
zeros to `w` characters. -/
def specPad (w : Nat) (n : Nat) : String :=
  String.mk (List.replicate (w - (toString n).length) '0') ++ toString n

/-- The spec's `t mod m`: `t - m * ⌊t / m⌋`. -/
def specMod (t m : ℚ) : ℚ := t - m * ⌊t / m⌋

/-- The timestamp format as the spec words it: hours `⌊t / 3600⌋`
zero-padded to 2 digits, minutes `⌊(t mod 3600) / 60⌋` to 2, seconds
`⌊t mod 60⌋` to 2, milliseconds `⌊(t mod 1) * 1000⌋` to 3, colons
between the first three fields and a comma before the milliseconds. -/
def specTimestamp (t : ℚ) : String :=
  specPad 2 ⌊t / 3600⌋.toNat ++ ":" ++ specPad 2 ⌊specMod t 3600 / 60⌋.toNat ++ ":" ++
    specPad 2 ⌊specMod t 60⌋.toNat ++ "," ++ specPad 3 ⌊specMod t 1 * 1000⌋.toNat

/-! ### Blank-line analysis of concatenated SRT blocks -/

/-- Returns `true` iff the list holds two consecutive newline characters — i.e.
the rendered text has a blank line (a line with nothing between its
bounding newlines). -/
def consecNl : List Char → Bool
  | [] => false
  | [_] => false
  | a :: b :: rest => (a = '\n' && b = '\n') || consecNl (b :: rest)

/-- A blank line occurs in `s` iff two consecutive newlines occur among
its characters. -/
def hasBlankLine (s : String) : Bool := consecNl s.data

/-- Newline-terminated chunks, concatenated. -/
def joinNl : List (List Char) → List Char
  | [] => []
  | c :: cs => c ++ '\n' :: joinNl cs

/-! ### Arithmetic helper lemmas -/

theorem pyInt_intCast (z : ℤ) : pyInt (z : ℚ) = z := by
  unfold pyInt
  split
  · exact Int.floor_intCast z
  · exact Int.ceil_intCast z

theorem pyInt_pyFloorDiv (a b : ℚ) : pyInt (pyFloorDiv a b) = ⌊a / b⌋ := pyInt_intCast _

theorem pyInt_of_nonneg {q : ℚ} (h : 0 ≤ q) : pyInt q = ⌊q⌋ := if_pos h

theorem pyMod_nonneg (a : ℚ) {b : ℚ} (hb : 0 < b) : 0 ≤ pyMod a b := by
  unfold pyMod pyFloorDiv
  have h1 : ((⌊a / b⌋ : ℚ)) ≤ a / b := Int.floor_le _
  have h2 : b * ((⌊a / b⌋ : ℚ)) ≤ b * (a / b) := mul_le_mul_of_nonneg_left h1 hb.le
  have h3 : b * (a / b) = a := mul_div_cancel₀ a hb.ne'
  linarith

theorem pyMod_eq (a b : ℚ) (H : ℤ) (hH : ⌊a / b⌋ = H) : pyMod a b = a - b * H := by
  unfold pyMod pyFloorDiv
  rw [hH]

/-- Evaluation scheme for `_format_timestamp`: the four rendered fields,
given the values of the floors the definition takes. -/
theorem format_timestamp_eq (t : ℚ) (H K L M S MS : ℤ)
    (hH : ⌊t / 3600⌋ = H) (hK : ⌊t / 60⌋ = K) (hL : ⌊t / 1⌋ = L)
    (hM : ⌊(t - 3600 * H) / 60⌋ = M) (hS : ⌊t - 60 * K⌋ = S)
    (hMS : ⌊(t - 1 * L) * 1000⌋ = MS) :
    SRTSegment._format_timestamp t =
      pyZFill 2 H ++ ":" ++ pyZFill 2 M ++ ":" ++ pyZFill 2 S ++ "," ++ pyZFill 3 MS := by
  unfold SRTSegment._format_timestamp
  rw [pyInt_pyFloorDiv t 3600, hH, pyMod_eq t 3600 H hH, pyInt_pyFloorDiv _ 60, hM,
    pyInt_of_nonneg (pyMod_nonneg t (by norm_num : (0:ℚ) < 60)), pyMod_eq t 60 K hK, hS,
    pyInt_of_nonneg (mul_nonneg (pyMod_nonneg t (by norm_num : (0:ℚ) < 1)) (by norm_num)),
    pyMod_eq t 1 L (by simpa using hL), hMS]

/-! ### Structure of the accumulation loop -/

theorem transcribeLoop_texts (idx : Nat) (start : ℚ) (segs : List Segment) :
    (transcribeLoop idx start segs).1 = segs.map Segment.text := by
  induction segs generalizing idx start with
  | nil => rfl
  | cons s rest ih => simp [transcribeLoop, ih]

theorem transcribeLoop_length (idx : Nat) (start : ℚ) (segs : List Segment) :
    (transcribeLoop idx start segs).2.1.length = segs.length := by
  induction segs generalizing idx start with
  | nil => rfl
  | cons s rest ih => simp [transcribeLoop, ih]

theorem transcribeLoop_indices (idx : Nat) (start : ℚ) (segs : List Segment) :
    (transcribeLoop idx start segs).2.1.map SRTSegment.index = List.range' idx segs.length := by
  induction segs generalizing idx start with
  | nil => rfl
  | cons s rest ih => simp [transcribeLoop, ih, List.range'_succ]

theorem transcribeLoop_get_end (idx : Nat) (start : ℚ) (segs : List Segment)
    (i : Nat) (hi : i < segs.length)
    (hr : i < (transcribeLoop idx start segs).2.1.length) :
    ((transcribeLoop idx start segs).2.1.get ⟨i, hr⟩).end_time = (segs.get ⟨i, hi⟩).end_ := by
  induction segs generalizing idx start i with
  | nil => exact absurd hi (by simp)
  | cons s rest ih =>
    match i with
    | 0 => rfl
    | j + 1 =>
      have hj : j < rest.length := by simpa using hi
      have hrj : j < (transcribeLoop (idx + 1) s.end_ rest).2.1.length := by
        rw [transcribeLoop_length]; exact hj
      simpa [transcribeLoop] using ih (idx + 1) s.end_ j hj hrj

theorem transcribeLoop_get_zero_start (idx : Nat) (start : ℚ) (segs : List Segment)
    (h : 0 < (transcribeLoop idx start segs).2.1.length) :
    ((transcribeLoop idx start segs).2.1.get ⟨0, h⟩).start_time = start := by
  cases segs with
  | nil => exact absurd h (by simp [transcribeLoop])
  | cons s rest => rfl

theorem transcribeLoop_start_succ (idx : Nat) (start : ℚ) (segs : List Segment)
    (i : Nat) (hi : i + 1 < (transcribeLoop idx start segs).2.1.length) :
    ((transcribeLoop idx start segs).2.1.get ⟨i + 1, hi⟩).start_time =
      ((transcribeLoop idx start segs).2.1.get ⟨i, Nat.lt_of_succ_lt hi⟩).end_time := by
  induction segs generalizing idx start i with
  | nil => exact absurd hi (by simp [transcribeLoop])
  | cons s rest ih =>
    match i with
    | 0 =>
      have h0 : 0 < (transcribeLoop (idx + 1) s.end_ rest).2.1.length := by
        have := hi
        simp [transcribeLoop] at this
        simpa [transcribeLoop_length] using this
      simpa [transcribeLoop] using transcribeLoop_get_zero_start (idx + 1) s.end_ rest h0
    | j + 1 =>
      have hj : j + 1 < (transcribeLoop (idx + 1) s.end_ rest).2.1.length := by
        have := hi
        simpa [transcribeLoop] using this
      simpa [transcribeLoop] using ih (idx + 1) s.end_ j hj

theorem transcribeLoop_deltas_sum (segs : List Segment) (idx : Nat) (start : ℚ)
    (s0 : Segment) (hlast : segs.getLast? = some s0) :
    ((transcribeLoop idx start segs).2.2).sum = s0.end_ - start := by
  induction segs generalizing idx start with
  | nil => simp at hlast
  | cons s rest ih =>
    cases rest with
    | nil =>
      simp at hlast
      subst hlast
      simp [transcribeLoop]
    | cons s1 rest1 =>
      have hlast' : (s1 :: rest1).getLast? = some s0 := by
        simpa [List.getLast?_cons_cons] using hlast
      have hsum := ih (idx + 1) s.end_ hlast'
      have hstep : (transcribeLoop idx start (s :: s1 :: rest1)).2.2 =
          (s.end_ - start) :: (transcribeLoop (idx + 1) s.end_ (s1 :: rest1)).2.2 := rfl
      rw [hstep, List.sum_cons, hsum]
      ring

theorem transcribeLoop_deltas_nonneg (segs : List Segment) (idx : Nat) (start : ℚ)
    (hhead : ∀ s0, segs.head? = some s0 → start ≤ s0.end_)
    (hchain : List.Chain' (fun a b : Segment => a.end_ < b.end_) segs) :
    ∀ d ∈ (transcribeLoop idx start segs).2.2, 0 ≤ d := by
  induction segs generalizing idx start with
  | nil => simp [transcribeLoop]
  | cons s rest ih =>
    have hs : start ≤ s.end_ := hhead s rfl
    rw [List.chain'_cons'] at hchain
    intro d hd
    simp only [transcribeLoop, List.mem_cons] at hd
    rcases hd with rfl | hd
    · linarith
    · exact ih (idx + 1) s.end_
        (fun s0 h0 => le_of_lt (hchain.1 s0 h0)) hchain.2 d hd

theorem transcribeLoop_last_end (segs : List Segment) (idx : Nat) (start : ℚ) :
    ((transcribeLoop idx start segs).2.1).getLast?.map SRTSegment.end_time =
      segs.getLast?.map Segment.end_ := by
  induction segs generalizing idx start with
  | nil => rfl
  | cons s rest ih =>
    cases rest with
    | nil => simp [transcribeLoop]
    | cons s1 rest1 =>
      have := ih (idx + 1) s.end_
      simp only [transcribeLoop, List.getLast?_cons_cons] at this ⊢
      exact this

/-! ### Claim theorems -/

/-- C1: `process_audio_file` (line 79) calls `transcribe_audio` with three
positional arguments while `transcribe_audio`'s definition (line 45) accepts
exactly two, so every call raises `TypeError` at the call site — before the
engine runs (the result does not depend on `transcribeBody`) and before any
file write (the error carries no write log). -/
theorem process_audio_file_raises_typeError
    (transcribeBody : Unit → String × List SRTSegment × List ℚ) (outFile : String) :
    process_audio_file transcribeBody outFile = .error .typeError := rfl

theorem process_audio_file_raises_typeError_witness :
    process_audio_file (fun _ => ("", [], [])) "output/20240101_000000_output.txt" =
      .error .typeError :=
  process_audio_file_raises_typeError (fun _ => ("", [], [])) "output/20240101_000000_output.txt"

/-- C6: the records returned by `transcribe_audio` have contiguous time
spans — the first record's `start_time` is `0.0`, every later record's
`start_time` equals the previous record's `end_time`, and every record's
`end_time` equals the corresponding input segment's `end`. -/
theorem transcribe_audio_time_contiguity (segs : List Segment) :
    (∀ h0 : 0 < ((transcribe_audio segs).2.1).length,
      (((transcribe_audio segs).2.1).get ⟨0, h0⟩).start_time = 0) ∧
    (∀ (i : Nat) (hi : i + 1 < ((transcribe_audio segs).2.1).length),
      (((transcribe_audio segs).2.1).get ⟨i + 1, hi⟩).start_time =
        (((transcribe_audio segs).2.1).get ⟨i, Nat.lt_of_succ_lt hi⟩).end_time) ∧
    (∀ (i : Nat) (hi : i < ((transcribe_audio segs).2.1).length) (hi' : i < segs.length),
      (((transcribe_audio segs).2.1).get ⟨i, hi⟩).end_time = (segs.get ⟨i, hi'⟩).end_) :=
  ⟨fun h0 => transcribeLoop_get_zero_start 1 0 segs h0,
    fun i hi => transcribeLoop_start_succ 1 0 segs i hi,
    fun i hi hi' => transcribeLoop_get_end 1 0 segs i hi' hi⟩

theorem transcribe_audio_time_contiguity_witness :
    ((transcribe_audio [⟨1, "a"⟩, ⟨2, "b"⟩]).2.1.get
        ⟨1, by simp [transcribe_audio, transcribeLoop_length]⟩).start_time =
      ((transcribe_audio [⟨1, "a"⟩, ⟨2, "b"⟩]).2.1.get
        ⟨0, by simp [transcribe_audio, transcribeLoop_length]⟩).end_time :=
  (transcribe_audio_time_contiguity [⟨1, "a"⟩, ⟨2, "b"⟩]).2.1 0
    (by simp [transcribe_audio, transcribeLoop_length])

/-- C7: for any input of N segments the records' index fields are exactly
`1, 2, ..., N` in order with no gaps (their list has length N); for N = 0
the record list is empty and the transcript string is empty. -/
theorem transcribe_audio_index_contiguity (segs : List Segment) :
    ((transcribe_audio segs).2.1).length = segs.length ∧
    ((transcribe_audio segs).2.1).map SRTSegment.index = List.range' 1 segs.length ∧
    (transcribe_audio ([] : List Segment)).2.1 = [] ∧
    (transcribe_audio ([] : List Segment)).1 = "" :=
  ⟨transcribeLoop_length 1 0 segs, transcribeLoop_indices 1 0 segs, rfl, rfl⟩

theorem transcribe_audio_index_contiguity_witness :
    ((transcribe_audio [⟨1, "a"⟩, ⟨2, "b"⟩, ⟨3, "c"⟩]).2.1).map SRTSegment.index =
      List.range' 1 3 :=
  (transcribe_audio_index_contiguity [⟨1, "a"⟩, ⟨2, "b"⟩, ⟨3, "c"⟩]).2.1

/-- C9: the transcript returned by `transcribe_audio` is the segment texts
joined with a single space in arrival order (no reordering, deduplication
or trimming); in particular for texts `["Hello", "world."]` it equals
`"Hello world."`. -/
theorem transcribe_audio_transcript_join (segs : List Segment) :
    (transcribe_audio segs).1 = String.intercalate " " (segs.map Segment.text) ∧
    (transcribe_audio [⟨1, "Hello"⟩, ⟨2, "world."⟩]).1 = "Hello world." := by
  constructor
  · have h : (transcribe_audio segs).1 = String.intercalate " " (transcribeLoop 1 0 segs).1 :=
      rfl
    rw [h, transcribeLoop_texts]
  · rfl

theorem transcribe_audio_transcript_join_witness :
    (transcribe_audio [⟨1, "Hello"⟩, ⟨2, "world."⟩]).1 = "Hello world." :=
  (transcribe_audio_transcript_join []).2

/-- C8: for segments with strictly increasing `end` (first one non-negative,
all bounded by the engine-reported duration), every `pbar.update` delta is
non-negative, the accumulated progress (the sum of the deltas) equals the
last record's `end_time`, and it does not exceed the reported duration. -/
theorem transcribe_audio_progress (segs : List Segment) (duration : ℚ)
    (hne : segs ≠ [])
    (hchain : List.Chain' (fun a b : Segment => a.end_ < b.end_) segs)
    (hfirst : ∀ s0, segs.head? = some s0 → 0 ≤ s0.end_)
    (hdur : ∀ s ∈ segs, s.end_ ≤ duration) :
    (∀ d ∈ (transcribe_audio segs).2.2, 0 ≤ d) ∧
    ∃ r, ((transcribe_audio segs).2.1).getLast? = some r ∧
      ((transcribe_audio segs).2.2).sum = r.end_time ∧
      ((transcribe_audio segs).2.2).sum ≤ duration := by
  have hlast : segs.getLast? = some (segs.getLast hne) := List.getLast?_eq_getLast segs hne
  set s0 := segs.getLast hne with hs0
  have hsum : ((transcribe_audio segs).2.2).sum = s0.end_ - 0 :=
    transcribeLoop_deltas_sum segs 1 0 s0 hlast
  have hrec : ((transcribe_audio segs).2.1).getLast?.map SRTSegment.end_time =
      some s0.end_ := by
    rw [show ((transcribe_audio segs).2.1) = (transcribeLoop 1 0 segs).2.1 from rfl,
      transcribeLoop_last_end, hlast, Option.map_some']
  obtain ⟨r, hr, hre⟩ := Option.map_eq_some'.mp hrec
  refine ⟨transcribeLoop_deltas_nonneg segs 1 0 (fun s hs => hfirst s hs) hchain,
    r, hr, ?_, ?_⟩
  · rw [hsum, hre]
    ring
  · rw [hsum]
    have := hdur s0 (List.getLast_mem hne)
    linarith

theorem transcribe_audio_progress_witness :
    (∀ d ∈ (transcribe_audio [⟨1, "a"⟩, ⟨2, "b"⟩]).2.2, 0 ≤ d) ∧
    ∃ r, ((transcribe_audio [⟨1, "a"⟩, ⟨2, "b"⟩]).2.1).getLast? = some r ∧
      ((transcribe_audio [⟨1, "a"⟩, ⟨2, "b"⟩]).2.2).sum = r.end_time ∧
      ((transcribe_audio [⟨1, "a"⟩, ⟨2, "b"⟩]).2.2).sum ≤ 2 :=
  transcribe_audio_progress [⟨1, "a"⟩, ⟨2, "b"⟩] 2 (by simp)
    (by
      refine List.chain'_cons.mpr ⟨by norm_num, ?_⟩
      simp)
    (by
      intro s0 h0
      simp at h0
      subst h0
      show (0 : ℚ) ≤ 1
      norm_num)
    (by
      intro s hs
      simp at hs
      rcases hs with rfl | rfl <;> norm_num)

theorem pyZFill_of_nonneg {i : ℤ} (h : 0 ≤ i) (w : Nat) : pyZFill w i = specPad w i.toNat := by
  have hn : i.natAbs = i.toNat := by omega
  apply String.ext
  simp only [pyZFill, specPad, if_neg (not_lt.mpr h), hn, String.data_append]
  simp

theorem pyMod_eq_specMod (a b : ℚ) : pyMod a b = specMod a b := rfl

theorem format_timestamp_eq_spec {t : ℚ} (ht : 0 ≤ t) :
    SRTSegment._format_timestamp t = specTimestamp t := by
  have hMod3600 : 0 ≤ specMod t 3600 := by
    rw [← pyMod_eq_specMod]
    exact pyMod_nonneg t (by norm_num)
  have hMod60 : 0 ≤ specMod t 60 := by
    rw [← pyMod_eq_specMod]
    exact pyMod_nonneg t (by norm_num)
  have hMod1 : 0 ≤ specMod t 1 := by
    rw [← pyMod_eq_specMod]
    exact pyMod_nonneg t (by norm_num)
  have hH : 0 ≤ ⌊t / 3600⌋ := Int.floor_nonneg.mpr (div_nonneg ht (by norm_num))
  have hM : 0 ≤ ⌊specMod t 3600 / 60⌋ := Int.floor_nonneg.mpr (div_nonneg hMod3600 (by norm_num))
  have hS : 0 ≤ ⌊specMod t 60⌋ := Int.floor_nonneg.mpr hMod60
  have hMS : 0 ≤ ⌊specMod t 1 * 1000⌋ :=
    Int.floor_nonneg.mpr (mul_nonneg hMod1 (by norm_num))
  unfold SRTSegment._format_timestamp specTimestamp
  simp only [pyInt_pyFloorDiv, pyMod_eq_specMod]
  rw [pyInt_of_nonneg hMod60, pyInt_of_nonneg (mul_nonneg hMod1 (by norm_num : (0:ℚ) ≤ 1000)),
    pyZFill_of_nonneg hH, pyZFill_of_nonneg hM, pyZFill_of_nonneg hS, pyZFill_of_nonneg hMS]

/-- C5: for non-negative `t`, `_format_timestamp t` is exactly the spec's
`HH:MM:SS,mmm` rendering — truncated (floored) hours/minutes/seconds/
milliseconds, zero-padded to 2/2/2/3 digits — and in particular
`format 0 = "00:00:00,000"`, `format 3661.5 = "01:01:01,500"`,
`format 59.999 = "00:00:59,999"`, and `format 0.9999` gives milliseconds
`999`, not `1000`. -/
theorem format_timestamp_matches_spec :
    (∀ t : ℚ, 0 ≤ t → SRTSegment._format_timestamp t = specTimestamp t) ∧
    SRTSegment._format_timestamp 0 = "00:00:00,000" ∧
    SRTSegment._format_timestamp (7323 / 2) = "01:01:01,500" ∧
    SRTSegment._format_timestamp (59999 / 1000) = "00:00:59,999" ∧
    SRTSegment._format_timestamp (9999 / 10000) = "00:00:00,999" := by
  refine ⟨fun t ht => format_timestamp_eq_spec ht, ?_, ?_, ?_, ?_⟩
  · rw [format_timestamp_eq 0 0 0 0 0 0 0]
    · rfl
    all_goals (rw [Int.floor_eq_iff]; norm_num)
  · rw [format_timestamp_eq (7323 / 2) 1 61 3661 1 1 500]
    · rfl
    all_goals (rw [Int.floor_eq_iff]; norm_num)
  · rw [format_timestamp_eq (59999 / 1000) 0 0 59 0 59 999]
    · rfl
    all_goals (rw [Int.floor_eq_iff]; norm_num)
  · rw [format_timestamp_eq (9999 / 10000) 0 0 0 0 0 999]
    · rfl
    all_goals (rw [Int.floor_eq_iff]; norm_num)

theorem format_timestamp_matches_spec_witness :
    (0 : ℚ) ≤ 5 / 2 ∧ SRTSegment._format_timestamp (5 / 2) = specTimestamp (5 / 2) :=
  ⟨by norm_num, format_timestamp_matches_spec.1 (5 / 2) (by norm_num)⟩

/-- C10: the single record derived from the one-segment input
`{end_time: 2.5, text: "Hi"}` is `⟨1, 0.0, 2.5, "Hi"⟩`, and its
`to_srt_string` is exactly `"1\n00:00:00,000 --> 00:00:02,500\nHi\n"`. -/
theorem to_srt_string_single_segment :
    (transcribe_audio [⟨5 / 2, "Hi"⟩]).2.1 = [⟨1, 0, 5 / 2, "Hi"⟩] ∧
    SRTSegment.to_srt_string ⟨1, 0, 5 / 2, "Hi"⟩ =
      "1\n00:00:00,000 --> 00:00:02,500\nHi\n" := by
  refine ⟨rfl, ?_⟩
  have h0 : SRTSegment._format_timestamp 0 = "00:00:00,000" := by
    rw [format_timestamp_eq 0 0 0 0 0 0 0]
    · rfl
    all_goals (rw [Int.floor_eq_iff]; norm_num)
  have h2 : SRTSegment._format_timestamp (5 / 2) = "00:00:02,500" := by
    rw [format_timestamp_eq (5 / 2) 0 0 2 0 2 500]
    · rfl
    all_goals (rw [Int.floor_eq_iff]; norm_num)
  show toString (1 : Nat) ++ "\n" ++ SRTSegment._format_timestamp 0 ++ " --> " ++
      SRTSegment._format_timestamp (5 / 2) ++ "\n" ++ "Hi" ++ "\n" = _
  rw [h0, h2]
  rfl

/-- C4 counterexample: at the negative input `t = -1`, `_format_timestamp`
does not fail: it silently returns the malformed string `"-1:59:59,000"`
(Python's floor `//` makes the hours field `-1` while `%` keeps the other
fields non-negative). -/
theorem format_timestamp_neg_counterexample :
    SRTSegment._format_timestamp (-1) = "-1:59:59,000" := by
  rw [format_timestamp_eq (-1) (-1) (-1) (-1) 59 59 0]
  · rfl
  all_goals (rw [Int.floor_eq_iff]; norm_num)

theorem pyZFill_neg {i : ℤ} (h : i < 0) (w : Nat) :
    pyZFill w i =
      "-" ++ (String.mk (List.replicate (w - (("-" : String).length +
        (toString i.natAbs).length)) '0') ++ toString i.natAbs) := by
  apply String.ext
  simp only [pyZFill, if_pos h, String.data_append]
  simp

/-- C4 (amended): a negative time value does not fail fast — the function
silently returns a string, one that begins with a minus sign because the
hours field `int(t // 3600)` is negative; a malformed timestamp is
produced rather than a fault. -/
theorem format_timestamp_neg_returns_string (t : ℚ) (ht : t < 0) :
    ∃ tail : String, SRTSegment._format_timestamp t = "-" ++ tail := by
  have hH : ⌊t / 3600⌋ < 0 := by
    rw [Int.floor_lt]
    push_cast
    exact div_neg_of_neg_of_pos ht (by norm_num)
  refine ⟨(String.mk (List.replicate (2 - (("-" : String).length +
      (toString (⌊t / 3600⌋).natAbs).length)) '0') ++ toString (⌊t / 3600⌋).natAbs) ++
      (":" ++ pyZFill 2 (pyInt (pyFloorDiv (pyMod t 3600) 60)) ++ ":" ++
        pyZFill 2 (pyInt (pyMod t 60)) ++ "," ++ pyZFill 3 (pyInt (pyMod t 1 * 1000))), ?_⟩
  unfold SRTSegment._format_timestamp
  rw [pyInt_pyFloorDiv, pyZFill_neg hH]
  apply String.ext
  simp [String.data_append, List.append_assoc]

theorem format_timestamp_neg_returns_string_witness :
    ∃ tail : String, SRTSegment._format_timestamp (-1) = "-" ++ tail :=
  format_timestamp_neg_returns_string (-1) (by norm_num)

/-- C2 counterexample: on the input ends `[2, 1]` (the second segment's
`end` is below the running start 2), the accumulator raises no fault: it
returns normally and its second record has `start_time = 2` above
`end_time = 1`. -/
theorem accumulator_no_fail_fast_counterexample :
    (transcribe_audio [⟨2, "a"⟩, ⟨1, "b"⟩]).2.1 = [⟨1, 0, 2, "a"⟩, ⟨2, 2, 1, "b"⟩] ∧
    (1 : ℚ) < 2 :=
  ⟨rfl, by norm_num⟩

/-- C2 (amended): the accumulator performs no timestamp validation: when a
segment's `end` is below the running start, it does not fail fast but
silently emits the record with `start_time > end_time` (and continues
normally). -/
theorem accumulator_emits_inverted_record (s1 s2 : Segment) (h : s2.end_ < s1.end_) :
    (transcribe_audio [s1, s2]).2.1 =
      [⟨1, 0, s1.end_, s1.text⟩, ⟨2, s1.end_, s2.end_, s2.text⟩] ∧
    ((transcribe_audio [s1, s2]).2.1.get
        ⟨1, by simp [transcribe_audio, transcribeLoop_length]⟩).end_time <
      ((transcribe_audio [s1, s2]).2.1.get
        ⟨1, by simp [transcribe_audio, transcribeLoop_length]⟩).start_time :=
  ⟨rfl, h⟩

theorem accumulator_emits_inverted_record_witness :
    (transcribe_audio [⟨2, "a"⟩, ⟨1, "b"⟩]).2.1 =
      [⟨1, 0, 2, "a"⟩, ⟨2, 2, 1, "b"⟩] ∧
    ((transcribe_audio [⟨2, "a"⟩, ⟨1, "b"⟩]).2.1.get
        ⟨1, by simp [transcribe_audio, transcribeLoop_length]⟩).end_time <
      ((transcribe_audio [⟨2, "a"⟩, ⟨1, "b"⟩]).2.1.get
        ⟨1, by simp [transcribe_audio, transcribeLoop_length]⟩).start_time :=
  accumulator_emits_inverted_record ⟨2, "a"⟩ ⟨1, "b"⟩ (by norm_num)

theorem consecNl_append_chunk (c : List Char) (hfree : ∀ ch ∈ c, ch ≠ '\n')
    (R : List Char) (hR : consecNl ('\n' :: R) = false) :
    consecNl (c ++ '\n' :: R) = false := by
  induction c with
  | nil => simpa using hR
  | cons a c' ih =>
    have ha : a ≠ '\n' := hfree a (by simp)
    have hih : consecNl (c' ++ '\n' :: R) = false :=
      ih (fun ch hch => hfree ch (by simp [hch]))
    rcases hcl : c' ++ '\n' :: R with _ | ⟨b, tl⟩
    · simp at hcl
    · rw [List.cons_append, hcl]
      rw [hcl] at hih
      simp [consecNl, ha, hih]

theorem consecNl_joinNl (chunks : List (List Char))
    (h : ∀ c ∈ chunks, c ≠ [] ∧ ∀ ch ∈ c, ch ≠ '\n') :
    consecNl (joinNl chunks) = false ∧
      ∀ ch, (joinNl chunks).head? = some ch → ch ≠ '\n' := by
  induction chunks with
  | nil => exact ⟨rfl, by simp [joinNl]⟩
  | cons c cs ih =>
    obtain ⟨hcne, hcfree⟩ := h c (by simp)
    have ihh := ih (fun c' hc' => h c' (by simp [hc']))
    have hnl : consecNl ('\n' :: joinNl cs) = false := by
      rcases hj : joinNl cs with _ | ⟨b, tl⟩
      · rfl
      · have hb : b ≠ '\n' := ihh.2 b (by rw [hj]; rfl)
        have hbt : consecNl (b :: tl) = false := by
          rw [← hj]
          exact ihh.1
        simp [consecNl, hb, hbt]
    refine ⟨consecNl_append_chunk c hcfree _ hnl, ?_⟩
    intro ch hch
    rcases c with _ | ⟨a, c'⟩
    · exact absurd rfl hcne
    · have hcha : ch = a := by
        simpa [joinNl] using hch.symm
      exact hcha ▸ hcfree a (by simp)

theorem digitChar_lt_ten_ne_nl {x : Nat} (hx : x < 10) : Nat.digitChar x ≠ '\n' := by
  interval_cases x <;> decide

theorem toDigitsCore_ne_nl : ∀ (fuel n : Nat) (ds : List Char),
    (∀ c ∈ ds, c ≠ '\n') → ∀ c ∈ Nat.toDigitsCore 10 fuel n ds, c ≠ '\n' := by
  intro fuel
  induction fuel with
  | zero =>
    intro n ds hds c hc
    exact hds c hc
  | succ fuel ih =>
    intro n ds hds c hc
    simp only [Nat.toDigitsCore] at hc
    have hcons : ∀ x ∈ Nat.digitChar (n % 10) :: ds, x ≠ '\n' := by
      intro x hx
      rcases List.mem_cons.mp hx with rfl | hx'
      · exact digitChar_lt_ten_ne_nl (Nat.mod_lt n (by norm_num))
      · exact hds x hx'
    split at hc
    · exact hcons c hc
    · exact ih (n / 10) _ hcons c hc

theorem toDigitsCore_ne_nil (b : Nat) : ∀ (fuel n : Nat) (ds : List Char),
    fuel ≠ 0 → Nat.toDigitsCore b fuel n ds ≠ [] := by
  intro fuel
  induction fuel with
  | zero =>
    intro n ds h
    exact absurd rfl h
  | succ fuel ih =>
    intro n ds _
    simp only [Nat.toDigitsCore]
    split
    · simp
    · cases fuel with
      | zero => simp [Nat.toDigitsCore]
      | succ f => exact ih (n / b) _ (by simp)

theorem toString_nat_free (n : Nat) : ∀ c ∈ (toString n).data, c ≠ '\n' := by
  show ∀ c ∈ Nat.toDigitsCore 10 (n + 1) n [], c ≠ '\n'
  exact toDigitsCore_ne_nl (n + 1) n [] (by simp)

theorem toString_nat_ne_nil (n : Nat) : (toString n).data ≠ [] := by
  show Nat.toDigitsCore 10 (n + 1) n [] ≠ []
  exact toDigitsCore_ne_nil 10 (n + 1) n [] (by simp)

theorem pyZFill_free (w : Nat) (i : ℤ) : ∀ c ∈ (pyZFill w i).data, c ≠ '\n' := by
  intro c hc
  simp only [pyZFill, String.data_append] at hc
  rcases List.mem_append.mp hc with h1 | h2
  · rcases List.mem_append.mp h1 with h0 | hmid
    · split at h0
      · simp at h0
        subst h0
        decide
      · simp at h0
    · have h0 := List.eq_of_mem_replicate hmid
      subst h0
      decide
  · exact toString_nat_free _ c h2

theorem nlFree_append {s1 s2 : String} (h1 : ∀ c ∈ s1.data, c ≠ '\n')
    (h2 : ∀ c ∈ s2.data, c ≠ '\n') : ∀ c ∈ (s1 ++ s2).data, c ≠ '\n' := by
  intro c hc
  rw [String.data_append] at hc
  rcases List.mem_append.mp hc with h | h
  · exact h1 c h
  · exact h2 c h

theorem format_timestamp_free (t : ℚ) :
    ∀ c ∈ (SRTSegment._format_timestamp t).data, c ≠ '\n' := by
  have hcolon : ∀ c ∈ (":" : String).data, c ≠ '\n' := by decide
  have hcomma : ∀ c ∈ ("," : String).data, c ≠ '\n' := by decide
  unfold SRTSegment._format_timestamp
  exact nlFree_append (nlFree_append (nlFree_append (nlFree_append (nlFree_append
    (nlFree_append (pyZFill_free 2 _) hcolon) (pyZFill_free 2 _)) hcolon)
    (pyZFill_free 2 _)) hcomma) (pyZFill_free 3 _)

/-- C3 counterexample: for the records `⟨1, 0, 1, "A"⟩` and `⟨2, 1, 2, "B"⟩`
the concatenation of their newline-terminated `to_srt_string` blocks is
`"1\n00:00:00,000 --> 00:00:01,000\nA\n2\n00:00:01,000 --> 00:00:02,000\nB\n"`,
which contains no blank line at all — not the claimed one blank line
between the first cue's text line and the second cue's index line. -/
theorem srt_concat_blank_line_counterexample :
    SRTSegment.to_srt_string ⟨1, 0, 1, "A"⟩ ++ SRTSegment.to_srt_string ⟨2, 1, 2, "B"⟩ =
      "1\n00:00:00,000 --> 00:00:01,000\nA\n2\n00:00:01,000 --> 00:00:02,000\nB\n" ∧
    hasBlankLine (SRTSegment.to_srt_string ⟨1, 0, 1, "A"⟩ ++
      SRTSegment.to_srt_string ⟨2, 1, 2, "B"⟩) = false := by
  have h0 : SRTSegment._format_timestamp 0 = "00:00:00,000" := by
    rw [format_timestamp_eq 0 0 0 0 0 0 0]
    · rfl
    all_goals (rw [Int.floor_eq_iff]; norm_num)
  have h1 : SRTSegment._format_timestamp 1 = "00:00:01,000" := by
    rw [format_timestamp_eq 1 0 0 1 0 1 0]
    · rfl
    all_goals (rw [Int.floor_eq_iff]; norm_num)
  have h2 : SRTSegment._format_timestamp 2 = "00:00:02,000" := by
    rw [format_timestamp_eq 2 0 0 2 0 2 0]
    · rfl
    all_goals (rw [Int.floor_eq_iff]; norm_num)
  have hb1 : SRTSegment.to_srt_string ⟨1, 0, 1, "A"⟩ =
      "1\n00:00:00,000 --> 00:00:01,000\nA\n" := by
    show toString (1 : Nat) ++ "\n" ++ SRTSegment._format_timestamp 0 ++ " --> " ++
        SRTSegment._format_timestamp 1 ++ "\n" ++ "A" ++ "\n" = _
    rw [h0, h1]
    rfl
  have hb2 : SRTSegment.to_srt_string ⟨2, 1, 2, "B"⟩ =
      "2\n00:00:01,000 --> 00:00:02,000\nB\n" := by
    show toString (2 : Nat) ++ "\n" ++ SRTSegment._format_timestamp 1 ++ " --> " ++
        SRTSegment._format_timestamp 2 ++ "\n" ++ "B" ++ "\n" = _
    rw [h1, h2]
    rfl
  rw [hb1, hb2]
  exact ⟨rfl, rfl⟩

/-- C3 (amended): each `to_srt_string` block ends in a single newline, so
concatenating two blocks puts the second cue's index line directly on the
line after the first cue's text line: for any two records with non-empty,
newline-free text fields, the concatenation contains no blank line at all
(zero blank lines between the cues, not the canonical one). -/
theorem srt_concat_no_blank_line (r1 r2 : SRTSegment)
    (h1ne : r1.text ≠ "") (h2ne : r2.text ≠ "")
    (h1free : ∀ c ∈ r1.text.data, c ≠ '\n') (h2free : ∀ c ∈ r2.text.data, c ≠ '\n') :
    hasBlankLine (SRTSegment.to_srt_string r1 ++ SRTSegment.to_srt_string r2) = false := by
  have harrow : (" --> " : String).data = [' ', '-', '-', '>', ' '] := rfl
  have htext1 : r1.text.data ≠ [] := fun hd => h1ne (String.ext hd)
  have htext2 : r2.text.data ≠ [] := fun hd => h2ne (String.ext hd)
  have hmid : ∀ a b : ℚ, (SRTSegment._format_timestamp a ++ " --> " ++
      SRTSegment._format_timestamp b).data ≠ [] := by
    intro a b hd
    rw [String.data_append, String.data_append, harrow] at hd
    simp at hd
  have hmidfree : ∀ a b : ℚ, ∀ c ∈ (SRTSegment._format_timestamp a ++ " --> " ++
      SRTSegment._format_timestamp b).data, c ≠ '\n' := fun a b =>
    nlFree_append (nlFree_append (format_timestamp_free a) (by decide))
      (format_timestamp_free b)
  have hdata : (SRTSegment.to_srt_string r1 ++ SRTSegment.to_srt_string r2).data =
      joinNl [(toString r1.index).data,
        (SRTSegment._format_timestamp r1.start_time ++ " --> " ++
          SRTSegment._format_timestamp r1.end_time).data,
        r1.text.data,
        (toString r2.index).data,
        (SRTSegment._format_timestamp r2.start_time ++ " --> " ++
          SRTSegment._format_timestamp r2.end_time).data,
        r2.text.data] := by
    simp [SRTSegment.to_srt_string, joinNl, String.data_append, List.append_assoc]
  show consecNl (SRTSegment.to_srt_string r1 ++ SRTSegment.to_srt_string r2).data = false
  rw [hdata]
  refine (consecNl_joinNl _ ?_).1
  intro c hc
  simp only [List.mem_cons, List.not_mem_nil, or_false] at hc
  rcases hc with rfl | rfl | rfl | rfl | rfl | rfl
  · exact ⟨toString_nat_ne_nil r1.index, toString_nat_free r1.index⟩
  · exact ⟨hmid _ _, hmidfree _ _⟩
  · exact ⟨htext1, h1free⟩
  · exact ⟨toString_nat_ne_nil r2.index, toString_nat_free r2.index⟩
  · exact ⟨hmid _ _, hmidfree _ _⟩
  · exact ⟨htext2, h2free⟩

theorem srt_concat_no_blank_line_witness :
    hasBlankLine (SRTSegment.to_srt_string ⟨1, 0, 2, "Hi"⟩ ++
      SRTSegment.to_srt_string ⟨2, 2, 3, "there"⟩) = false :=
  srt_concat_no_blank_line ⟨1, 0, 2, "Hi"⟩ ⟨2, 2, 3, "there"⟩ (by decide) (by decide)
    (by decide) (by decide)

end FasterWhisper
